import Mathlib

/-!
Verification development for the agtalk-scraper repository.

The Python sources (parser.py, scraper.py, robots_checker.py, database.py,
config.py, main.py) are shallowly embedded below: pure functions become Lean
functions, the stateful crawl loops become explicit state passing, fallible
calls return `Except`.  HTML documents are modelled by the fields the code
actually reads (the BeautifulSoup queries become record fields carrying the
query results), and `clean_text` normalisation is not re-modelled: every
string field of the document model carries the already-normalised text, and
the theorems quantify over those strings.
-/

/-! ## String helpers (Python `in`, `str.strip`, `re.search('tid=(\\d+)')`) -/

/-- Python whitespace test for `str.strip()`, restricted to the ASCII
whitespace characters (all strings handled by the scraper are ASCII). -/
def pyIsSpace (c : Char) : Bool :=
  c = ' ' || c = '\t' || c = '\n' || c = '\x0d' || c = '\x0b' || c = '\x0c'

/-- Python `str.strip()`: drop whitespace from both ends. -/
def pyStrip (s : String) : String :=
  String.mk (((s.data.dropWhile pyIsSpace).reverse.dropWhile pyIsSpace).reverse)

/-- Does `pre` occur at the very start of `l`? -/
def listStarts : List Char → List Char → Bool
  | [], _ => true
  | _ :: _, [] => false
  | a :: as, b :: bs => a = b && listStarts as bs

/-- Does `needle` occur somewhere inside `hay`? -/
def listHasSub (hay needle : List Char) : Bool :=
  match hay with
  | [] => needle.isEmpty
  | _ :: t => listStarts needle hay || listHasSub t needle

/-- Python substring containment `needle in hay`. -/
def strHasSub (hay needle : String) : Bool :=
  listHasSub hay.data needle.data

/-- Model of `re.search(r'tid=(\d+)', s)` over the character list: scan left
to right for an occurrence of the literal `tid=` that is immediately followed
by at least one digit, and return the maximal digit run (the capture group).
A position where `tid=` is not followed by a digit fails to match and the
scan continues one character further right, exactly as `re.search` does. -/
def tidSearchList : List Char → Option String
  | [] => none
  | c :: t =>
    if listStarts ['t', 'i', 'd', '='] (c :: t) then
      let ds := (t.drop 3).takeWhile Char.isDigit
      if ds.isEmpty then tidSearchList t else some (String.mk ds)
    else tidSearchList t

/-- Model of `re.search(r'tid=(\d+)', s)` returning the captured digits. -/
def tidSearch (s : String) : Option String :=
  tidSearchList s.data

/-! ## Extractor: thread links on a listing page (parser.py, extract_post_urls)

The anchors of the listing document are modelled by the list of their `href`
strings in document order (BeautifulSoup's `find_all('a', href=True)`), and
`urllib.parse.urljoin` — used only on the `topic-view.asp` / `reply-view.asp`
branch, which no claim constrains — is passed in as a parameter `uj`. -/

/-- Canonical thread URL rebuilt from a thread id (parser.py line 35). -/
def canonicalThreadUrl (base tid : String) : String :=
  base ++ "/forums/thread-view.asp?tid=" ++ tid ++ "&DisplayType=flat"

/-- URL contributed by one anchor (parser.py lines 26-43): a href containing
both `thread-view.asp` and `tid=` contributes the canonical URL for the first
`tid=<digits>` regex match, if any; otherwise a href containing
`topic-view.asp` or `reply-view.asp` contributes `urljoin(base, href)`. -/
def anchorUrl (uj : String → String → String) (base href : String) : Option String :=
  if strHasSub href "thread-view.asp" && strHasSub href "tid=" then
    (tidSearch href).map (canonicalThreadUrl base)
  else if strHasSub href "topic-view.asp" || strHasSub href "reply-view.asp" then
    some (uj base href)
  else
    none

/-- The main loop of `extract_post_urls` (parser.py lines 26-43): each
contributed URL is appended to the accumulator unless already present
(the in-loop `if ... not in post_urls` checks of lines 36 and 42). -/
def extractUrlsLoop (uj : String → String → String) (base : String) :
    List String → List String → List String
  | [], acc => acc
  | h :: t, acc =>
    match anchorUrl uj base h with
    | none => extractUrlsLoop uj base t acc
    | some u => extractUrlsLoop uj base t (if acc.contains u then acc else acc ++ [u])

/-- The second dedup pass of `extract_post_urls` (parser.py lines 45-51):
walk the list with a `seen` set, keeping first occurrences. -/
def dedupKeepFirst : List String → List String → List String
  | [], _ => []
  | x :: t, seen =>
    if seen.contains x then dedupKeepFirst t seen else x :: dedupKeepFirst t (x :: seen)

/-- AgTalkParser.extract_post_urls (parser.py lines 17-58), over the hrefs of
the document's anchors in document order. -/
def extract_post_urls (uj : String → String → String) (base : String)
    (hrefs : List String) : List String :=
  dedupKeepFirst (extractUrlsLoop uj base hrefs []) []

/-- Specification-side definition, from the spec's words: "Result order
follows document order; duplicates (by exact string) are removed, first
occurrence wins" — the first-occurrence subsequence of a list. -/
def specFirstOccurrences (l : List String) : List String :=
  dedupKeepFirst l []

/-- The per-anchor contributions in document order, before deduplication. -/
def rawUrls (uj : String → String → String) (base : String)
    (hrefs : List String) : List String :=
  hrefs.filterMap (anchorUrl uj base)

/-! ## Lemmas about the listing extractor -/

theorem strContains_eq (l : List String) (x : String) :
    l.contains x = decide (x ∈ l) := by
  simp [List.contains]

theorem strContains_iff {l : List String} {x : String} :
    l.contains x = true ↔ x ∈ l := by
  simp [List.contains]

theorem dedupKeepFirst_cons (x : String) (t seen : List String) :
    dedupKeepFirst (x :: t) seen
      = if seen.contains x = true then dedupKeepFirst t seen
        else x :: dedupKeepFirst t (x :: seen) := rfl

theorem dedupKeepFirst_congr (l : List String) :
    ∀ s₁ s₂ : List String, (∀ x, x ∈ s₁ ↔ x ∈ s₂) →
      dedupKeepFirst l s₁ = dedupKeepFirst l s₂ := by
  induction l with
  | nil => intro s₁ s₂ _; rfl
  | cons x t ih =>
    intro s₁ s₂ h
    have hc : s₁.contains x = s₂.contains x := by
      rw [strContains_eq, strContains_eq, decide_eq_decide]
      exact h x
    rw [dedupKeepFirst_cons, dedupKeepFirst_cons, hc]
    by_cases hx : s₂.contains x = true
    · rw [if_pos hx, if_pos hx]
      exact ih s₁ s₂ h
    · rw [if_neg hx, if_neg hx]
      rw [ih (x :: s₁) (x :: s₂) (fun y => by simp [List.mem_cons, h y])]

theorem extractUrlsLoop_eq (uj : String → String → String) (base : String) :
    ∀ (hrefs acc : List String),
      extractUrlsLoop uj base hrefs acc
        = acc ++ dedupKeepFirst (rawUrls uj base hrefs) acc := by
  intro hrefs
  induction hrefs with
  | nil => intro acc; simp [extractUrlsLoop, rawUrls, dedupKeepFirst]
  | cons h t ih =>
    intro acc
    simp only [extractUrlsLoop, rawUrls, List.filterMap_cons]
    cases hu : anchorUrl uj base h with
    | none => simpa [rawUrls] using ih acc
    | some u =>
      simp only [dedupKeepFirst_cons]
      by_cases hc : acc.contains u = true
      · rw [if_pos hc, if_pos hc]
        simpa [rawUrls] using ih acc
      · rw [if_neg hc, if_neg hc]
        rw [ih (acc ++ [u])]
        rw [dedupKeepFirst_congr (rawUrls uj base t) (acc ++ [u]) (u :: acc)
          (fun y => by simp [List.mem_append, List.mem_cons, or_comm])]
        simp [rawUrls]

theorem mem_dedupKeepFirst (x : String) :
    ∀ (l seen : List String), x ∈ dedupKeepFirst l seen ↔ (x ∈ l ∧ x ∉ seen) := by
  intro l
  induction l with
  | nil => intro seen; simp [dedupKeepFirst]
  | cons y t ih =>
    intro seen
    rw [dedupKeepFirst_cons]
    by_cases hy : seen.contains y = true
    · rw [if_pos hy, ih seen]
      have hymem : y ∈ seen := strContains_iff.mp hy
      constructor
      · rintro ⟨hxt, hxs⟩
        exact ⟨List.mem_cons_of_mem _ hxt, hxs⟩
      · rintro ⟨hxyt, hxs⟩
        rcases List.mem_cons.mp hxyt with rfl | hxt
        · exact absurd hymem hxs
        · exact ⟨hxt, hxs⟩
    · rw [if_neg hy]
      have hynm : y ∉ seen := fun hm => hy (strContains_iff.mpr hm)
      constructor
      · intro hx
        rcases List.mem_cons.mp hx with rfl | hx'
        · exact ⟨List.mem_cons_self _ _, hynm⟩
        · rcases (ih (y :: seen)).mp hx' with ⟨hxt, hxys⟩
          refine ⟨List.mem_cons_of_mem _ hxt, fun hxs => hxys (List.mem_cons_of_mem _ hxs)⟩
      · rintro ⟨hxyt, hxs⟩
        rcases List.mem_cons.mp hxyt with rfl | hxt
        · exact List.mem_cons_self _ _
        · by_cases hxy : x = y
          · subst hxy; exact List.mem_cons_self _ _
          · exact List.mem_cons_of_mem _
              ((ih (y :: seen)).mpr ⟨hxt, by simp [hxy, hxs]⟩)

theorem nodup_dedupKeepFirst :
    ∀ (l seen : List String), (dedupKeepFirst l seen).Nodup := by
  intro l
  induction l with
  | nil => intro seen; simp [dedupKeepFirst]
  | cons y t ih =>
    intro seen
    rw [dedupKeepFirst_cons]
    by_cases hy : seen.contains y = true
    · rw [if_pos hy]; exact ih seen
    · rw [if_neg hy]
      refine List.nodup_cons.mpr ⟨fun hmem => ?_, ih (y :: seen)⟩
      rcases (mem_dedupKeepFirst y t (y :: seen)).mp hmem with ⟨_, hns⟩
      exact hns (List.mem_cons_self _ _)

theorem dedupKeepFirst_of_nodup :
    ∀ (l seen : List String), l.Nodup → (∀ x ∈ l, x ∉ seen) →
      dedupKeepFirst l seen = l := by
  intro l
  induction l with
  | nil => intro seen _ _; rfl
  | cons y t ih =>
    intro seen hnd hdisj
    have hy : ¬ seen.contains y = true := by
      intro hc
      exact hdisj y (List.mem_cons_self _ _) (strContains_iff.mp hc)
    rw [dedupKeepFirst_cons, if_neg hy]
    congr 1
    refine ih (y :: seen) (List.nodup_cons.mp hnd).2 ?_
    intro x hx hxy
    rcases List.mem_cons.mp hxy with rfl | hxs
    · exact (List.nodup_cons.mp hnd).1 hx
    · exact hdisj x (List.mem_cons_of_mem _ hx) hxs

theorem tidSearchList_sub :
    ∀ cs : List Char, (tidSearchList cs).isSome = true →
      listHasSub cs ['t', 'i', 'd', '='] = true := by
  intro cs
  induction cs with
  | nil => intro h; simp [tidSearchList] at h
  | cons c t ih =>
    intro h
    rw [tidSearchList] at h
    by_cases hpre : listStarts ['t', 'i', 'd', '='] (c :: t) = true
    · simp [listHasSub, hpre]
    · rw [if_neg hpre] at h
      simp only [listHasSub, hpre, Bool.false_or]
      exact ih h

/-- C4 counterexample. The href `/forums/thread-view.asp?postid=7&tid=9` is a
thread-view anchor whose thread-identifier query parameter is `tid=9`, yet
`re.search(r'tid=(\d+)')` first matches inside `postid=7`, so the anchor is
rebuilt to the canonical URL for thread 7.  Together with a plain anchor for
the same thread 9, two differently-decorated URLs of one thread yield two
distinct extraction results, contradicting the claim that they yield one. -/
theorem extract_post_urls_same_tid_two_results :
    extract_post_urls (fun b h => b ++ h) "B"
        ["/forums/thread-view.asp?tid=9", "/forums/thread-view.asp?postid=7&tid=9"]
      = [canonicalThreadUrl "B" "9", canonicalThreadUrl "B" "7"] ∧
    canonicalThreadUrl "B" "9" ≠ canonicalThreadUrl "B" "7" := by
  constructor
  · rfl
  · decide

/-- C4 (amended): extract_post_urls returns, in document order with
exact-string duplicates removed first-occurrence-first, the per-anchor
contributions; the result has no duplicates; and every thread-view anchor
whose href contains `tid=` is rebuilt to the canonical flat-display URL for
the digits captured by the first `tid=<digits>` match in the href (which may
come from a longer parameter name such as `postid=`), so anchors with the
same first match collapse to a single result. -/
theorem extract_post_urls_order_dedup_canonical
    (uj : String → String → String) (base : String) (hrefs : List String) :
    extract_post_urls uj base hrefs = specFirstOccurrences (rawUrls uj base hrefs) ∧
    (extract_post_urls uj base hrefs).Nodup ∧
    ∀ h ∈ hrefs, strHasSub h "thread-view.asp" = true →
      ∀ t, tidSearch h = some t →
        canonicalThreadUrl base t ∈ extract_post_urls uj base hrefs := by
  have hmain : extract_post_urls uj base hrefs
      = specFirstOccurrences (rawUrls uj base hrefs) := by
    unfold extract_post_urls specFirstOccurrences
    rw [extractUrlsLoop_eq uj base hrefs []]
    rw [List.nil_append]
    exact dedupKeepFirst_of_nodup _ _ (nodup_dedupKeepFirst _ _) (by simp)
  refine ⟨hmain, ?_, ?_⟩
  · rw [hmain]; exact nodup_dedupKeepFirst _ _
  · intro h hmem hthread t htid
    rw [hmain]
    unfold specFirstOccurrences
    rw [mem_dedupKeepFirst]
    refine ⟨?_, by simp⟩
    unfold rawUrls
    rw [List.mem_filterMap]
    refine ⟨h, hmem, ?_⟩
    have htidsub : strHasSub h "tid=" = true := by
      unfold strHasSub
      exact tidSearchList_sub h.data (by rw [show tidSearchList h.data = tidSearch h from rfl, htid]; rfl)
    unfold anchorUrl
    rw [if_pos (by rw [hthread, htidsub]; rfl), htid]
    rfl

/-- C4 witness: the amended theorem applied at a concrete listing. -/
theorem extract_post_urls_order_dedup_canonical_witness :
    canonicalThreadUrl "B" "9"
      ∈ extract_post_urls (fun b h => b ++ h) "B" ["/forums/thread-view.asp?tid=9"] :=
  (extract_post_urls_order_dedup_canonical (fun b h => b ++ h) "B"
      ["/forums/thread-view.asp?tid=9"]).2.2
    "/forums/thread-view.asp?tid=9" (by decide) (by decide) "9" (by decide)

/-! ## Extractor: posts on a thread page (parser.py, extract_post_data)

A thread-page document is modelled by exactly the data the code reads from
the soup: the cleaned text of the `<title>` element, one entry per
`td.messageheader` element in document order, and, for scrape_post's
pagination check, the numeric `start=` values of the page's navigation
anchors.  Each header entry carries the results of the per-marker
BeautifulSoup queries, already passed through `clean_text` (the claims under
verification quantify over the normalised strings, so `clean_text` itself is
not re-modelled): the text of the `view-profile.asp` author link when one
exists, the result of the date-extraction block (parser.py lines 102-123,
constrained by no claim), and the cleaned text of the second `messagemiddle`
cell of the following row when that structure exists (lines 125-134).
A header whose processing would raise inside the per-marker body (malformed
node structure) is modelled by the `bad` constructor. -/

structure HeaderData where
  authorText : Option String
  dateText : String
  contentText : Option String
deriving DecidableEq

inductive Marker where
  | ok (d : HeaderData)
  | bad
deriving DecidableEq

structure ThreadDoc where
  titleText : Option String
  markers : List Marker
  navStarts : List Nat
deriving DecidableEq

/-- Thread title from the page title element (parser.py lines 70-78):
strip the prefix phrase `Viewing a thread - ` when present, empty when the
document has no title element. -/
def mainTitle (doc : ThreadDoc) : String :=
  match doc.titleText with
  | none => ""
  | some t => if t.startsWith "Viewing a thread - " then t.drop 19 else t

/-- Drop everything up to and including the first occurrence of `c`. -/
def afterChar (c : Char) : List Char → Option (List Char)
  | [] => none
  | x :: t => if x = c then some t else afterChar c t

/-- Keep everything strictly before the first occurrence of `c`. -/
def beforeChar (c : Char) : List Char → List Char
  | [] => []
  | x :: t => if x = c then [] else x :: beforeChar c t

/-- Split on every occurrence of `c`. -/
def splitOnChar (c : Char) : List Char → List (List Char)
  | [] => [[]]
  | x :: t =>
    let r := splitOnChar c t
    if x = c then [] :: r
    else
      match r with
      | h :: rt => (x :: h) :: rt
      | [] => [[x]]

/-- First `tid` value of a query string, as `parse_qs(query).get('tid', [''])[0]`
computes it (parser.py lines 66-68): split the query on `&`, take the first
field of the exact form `tid=<nonempty value>`; fields with an empty value are
dropped by `parse_qs` and percent-decoding is not modelled (the URLs the
scraper builds contain no escapes). -/
def firstTidField : List (List Char) → String
  | [] => ""
  | f :: rest =>
    if listStarts ['t', 'i', 'd', '='] f && !(f.drop 4).isEmpty
    then String.mk (f.drop 4)
    else firstTidField rest

/-- Thread id extracted from a thread-page URL (parser.py lines 66-68):
`urlparse` separates the fragment after `#` and the query after `?`, then
`parse_qs` yields the first `tid` value, defaulting to the empty string. -/
def threadIdOf (url : String) : String :=
  match afterChar '?' (beforeChar '#' url.data) with
  | none => ""
  | some q => firstTidField (splitOnChar '&' q)

/-- Content formatting policy (parser.py lines 136-145): empty or
short-after-strip content is replaced by a placeholder when the thread has a
title and the record is dropped (`none`) otherwise; adequate content is
wrapped with the subject, `[No subject]` standing in for a missing title. -/
def formatContent (title c : String) : Option String :=
  if c = "" || (pyStrip c).length < 10 then
    if title ≠ "" then some ("Subject: " ++ title ++ ", Post: [No additional content]")
    else none
  else
    some ("Subject: " ++ (if title ≠ "" then title else "[No subject]") ++ ", Post: " ++ c)

structure PostData where
  url : String
  title : String
  author : String
  postDate : String
  threadId : String
  content : String
  postNumber : Nat
deriving DecidableEq

/-- The per-marker loop of extract_post_data (parser.py lines 83-147):
`i` is the `enumerate` index over all header markers, `acc` the `posts` list.
A marker without an author-profile link is skipped (lines 85-87); a marker
whose processing raises aborts the whole loop (the `try` of line 64 wraps the
entire loop); otherwise the record is built with `post_number = len(posts)+1`
(line 96) and appended unless the content policy drops it (line 141). -/
def extractPostsLoop (url title tid : String) :
    List Marker → Nat → List PostData → Except Unit (List PostData)
  | [], _, acc => .ok acc
  | .bad :: _, _, _ => .error ()
  | .ok d :: t, i, acc =>
    match d.authorText with
    | none => extractPostsLoop url title tid t (i + 1) acc
    | some a =>
      match formatContent title (d.contentText.getD "") with
      | none => extractPostsLoop url title tid t (i + 1) acc
      | some c =>
        extractPostsLoop url title tid t (i + 1)
          (acc ++ [{ url := url ++ "#post" ++ toString (i + 1), title := title,
                     author := a, postDate := d.dateText, threadId := tid,
                     content := c, postNumber := acc.length + 1 }])

/-- AgTalkParser.extract_post_data (parser.py lines 60-153): run the marker
loop; any exception inside it is caught by the per-document handler of lines
151-153, which returns the empty list. -/
def extract_post_data (doc : ThreadDoc) (url : String) : List PostData :=
  match extractPostsLoop url (mainTitle doc) (threadIdOf url) doc.markers 0 [] with
  | .ok l => l
  | .error _ => []

/-- A marker that contributes a record: it parses, carries an author-profile
link, and survives the content policy for the given thread title. -/
def acceptsMarker (title : String) : Marker → Bool
  | .bad => false
  | .ok d => d.authorText.isSome && (formatContent title (d.contentText.getD "")).isSome

theorem extractPostsLoop_ok (url title tid : String) :
    ∀ ms : List Marker, Marker.bad ∉ ms → ∀ (i : Nat) (acc : List PostData),
      ∃ l, extractPostsLoop url title tid ms i acc = .ok l ∧
        l.map PostData.postNumber
          = acc.map PostData.postNumber
              ++ List.range' (acc.length + 1) (ms.countP (acceptsMarker title)) := by
  intro ms
  induction ms with
  | nil =>
    intro _ i acc
    exact ⟨acc, rfl, by simp⟩
  | cons m t ih =>
    intro hnb i acc
    have hnbt : Marker.bad ∉ t := fun hm => hnb (List.mem_cons_of_mem _ hm)
    cases m with
    | bad => exact absurd (List.mem_cons_self _ _) hnb
    | ok d =>
      rw [extractPostsLoop]
      cases ha : d.authorText with
      | none =>
        have hcount : List.countP (acceptsMarker title) (Marker.ok d :: t)
            = List.countP (acceptsMarker title) t := by
          rw [List.countP_cons]
          simp [acceptsMarker, ha]
        rw [hcount]
        exact ih hnbt (i + 1) acc
      | some a =>
        cases hf : formatContent title (d.contentText.getD "") with
        | none =>
          have hcount : List.countP (acceptsMarker title) (Marker.ok d :: t)
              = List.countP (acceptsMarker title) t := by
            rw [List.countP_cons]
            simp [acceptsMarker, ha, hf]
          rw [hcount]
          exact ih hnbt (i + 1) acc
        | some c =>
          have hcount : List.countP (acceptsMarker title) (Marker.ok d :: t)
              = List.countP (acceptsMarker title) t + 1 := by
            rw [List.countP_cons]
            simp [acceptsMarker, ha, hf]
          rw [hcount]
          obtain ⟨l, hl, hmap⟩ := ih hnbt (i + 1)
            (acc ++ [{ url := url ++ "#post" ++ toString (i + 1), title := title,
                       author := a, postDate := d.dateText, threadId := tid,
                       content := c, postNumber := acc.length + 1 }])
          refine ⟨l, hl, ?_⟩
          rw [hmap, List.range'_succ]
          simp [List.append_assoc]

/-- Supporting theorem: within one successfully parsed document, the records
returned by extract_post_data carry `postNumber` values that are exactly
1..K, where K is the number of markers that contribute a record. -/
theorem extract_post_data_postNumber_dense (doc : ThreadDoc) (url : String)
    (h : Marker.bad ∉ doc.markers) :
    (extract_post_data doc url).map PostData.postNumber
      = List.range' 1 (doc.markers.countP (acceptsMarker (mainTitle doc))) := by
  unfold extract_post_data
  obtain ⟨l, hl, hmap⟩ :=
    extractPostsLoop_ok url (mainTitle doc) (threadIdOf url) doc.markers h 0 []
  rw [hl]
  simpa using hmap

theorem extractPostsLoop_error (url title tid : String) :
    ∀ ms : List Marker, Marker.bad ∈ ms → ∀ (i : Nat) (acc : List PostData),
      extractPostsLoop url title tid ms i acc = .error () := by
  intro ms
  induction ms with
  | nil => intro h; exact absurd h (List.not_mem_nil _)
  | cons m t ih =>
    intro hb i acc
    cases m with
    | bad => rfl
    | ok d =>
      have hbt : Marker.bad ∈ t := by
        rcases List.mem_cons.mp hb with h | h
        · exact absurd h.symm (by simp)
        · exact h
      rw [extractPostsLoop]
      cases ha : d.authorText with
      | none => exact ih hbt (i + 1) acc
      | some a =>
        cases hf : formatContent title (d.contentText.getD "") with
        | none => exact ih hbt (i + 1) acc
        | some c => exact ih hbt (i + 1) _

/-- C7 (amended): an error raised while processing any single post marker is
caught by the per-document handler, so extract_post_data returns the empty
list for the whole document, discarding the records of every other marker;
extraction never propagates the error. -/
theorem extract_post_data_error_empties_document (doc : ThreadDoc) (url : String)
    (h : Marker.bad ∈ doc.markers) :
    extract_post_data doc url = [] := by
  unfold extract_post_data
  rw [extractPostsLoop_error url (mainTitle doc) (threadIdOf url) doc.markers h 0 []]

/-- C7 witness: the amended theorem at a concrete document. -/
theorem extract_post_data_error_empties_document_witness :
    extract_post_data ⟨some "T", [Marker.bad], []⟩ "u" = [] :=
  extract_post_data_error_empties_document ⟨some "T", [Marker.bad], []⟩ "u" (by decide)

/-- C7 counterexample. A document whose second marker raises yields no
records at all: the first marker's already-extracted record is discarded,
instead of only the failing marker being skipped.  The same document without
the failing marker yields one record, which is what the claim predicts for
the two-marker document as well. -/
theorem extract_post_data_not_skip_single_bad :
    extract_post_data
        ⟨some "T", [Marker.ok ⟨some "alice", "", some "hello everyone out there"⟩,
                    Marker.bad], []⟩ "u" = [] ∧
    (extract_post_data
        ⟨some "T", [Marker.ok ⟨some "alice", "", some "hello everyone out there"⟩], []⟩
        "u").length = 1 := by
  constructor
  · rfl
  · rfl

/-- C5 counterexample. A marker with no thread title whose normalized content
is nonempty but shorter than 10 characters is dropped entirely by the code
(parser.py line 141), whereas the claim's placeholder clause predicts a
record with content `Subject: , Post: [No additional content]`, and its drop
clause covers only records with neither subject nor content. -/
theorem formatContent_drops_untitled_short :
    formatContent "" "short" = none ∧
    "short" ≠ "" ∧ (pyStrip "short").length < 10 ∧
    formatContent "" "short"
      ≠ some "Subject: , Post: [No additional content]" := by
  refine ⟨rfl, by decide, by decide, by decide⟩

/-- C5 (amended): when the normalized content is empty or shorter than the
fixed 10-character minimum, the record's content is the exact placeholder if
the thread has a subject, and the record is dropped if the subject is empty
(regardless of whether some short content is present); otherwise the content
is the exact subject-wrapped form, with `[No subject]` standing in for a
missing subject. -/
theorem formatContent_policy (title c : String) :
    ((c = "" ∨ (pyStrip c).length < 10) → title ≠ "" →
      formatContent title c
        = some ("Subject: " ++ title ++ ", Post: [No additional content]")) ∧
    ((c = "" ∨ (pyStrip c).length < 10) → title = "" →
      formatContent title c = none) ∧
    (¬(c = "" ∨ (pyStrip c).length < 10) →
      formatContent title c
        = some ("Subject: " ++ (if title = "" then "[No subject]" else title)
            ++ ", Post: " ++ c)) := by
  refine ⟨?_, ?_, ?_⟩
  · intro hshort htitle
    have hcond : (c = "" || decide ((pyStrip c).length < 10)) = true := by
      rcases hshort with h | h
      · simp [h]
      · simp [h]
    unfold formatContent
    rw [if_pos (by simpa using hcond), if_pos (by simpa using htitle)]
  · intro hshort htitle
    have hcond : (c = "" || decide ((pyStrip c).length < 10)) = true := by
      rcases hshort with h | h
      · simp [h]
      · simp [h]
    unfold formatContent
    rw [if_pos (by simpa using hcond), if_neg (by simpa using htitle)]
  · intro hlong
    unfold formatContent
    rw [if_neg (by simpa using hlong)]
    by_cases ht : title = ""
    · rw [if_neg (by simpa using ht), if_pos ht]
    · rw [if_pos (by simpa using ht), if_neg ht]

/-- C5 witness: the amended theorem at concrete inputs. -/
theorem formatContent_policy_witness :
    formatContent "T" "short"
      = some "Subject: T, Post: [No additional content]" ∧
    formatContent "" "short" = none ∧
    formatContent "" "hello everyone out there"
      = some "Subject: [No subject], Post: hello everyone out there" := by
  refine ⟨?_, ?_, ?_⟩
  · exact (formatContent_policy "T" "short").1 (by decide) (by decide)
  · exact (formatContent_policy "" "short").2.1 (by decide) rfl
  · exact (formatContent_policy "" "hello everyone out there").2.2 (by decide)

/-! ## Scraper: listing page URL construction (scraper.py, get_forum_page_url) -/

/-- AgTalkScraper.get_forum_page_url (scraper.py lines 51-65).  Page numbers
are integers as in Python; page 1 gets the plain flat view, any other page a
`bookmark` offset of `1 + (page - 1) * 50`. -/
def get_forum_page_url (base : String) (forum_id : Nat) (page : Int) : String :=
  if page = 1 then
    base ++ "/forums/forum-view.asp?fid=" ++ toString forum_id ++ "&displaytype=flat"
  else
    base ++ "/forums/forum-view.asp?fid=" ++ toString forum_id
      ++ "&bookmark=" ++ toString (1 + (page - 1) * 50) ++ "&displaytype=flat"

/-- The while loop of get_forum_page_urls (scraper.py lines 67-77): one URL
per page from `start_page` while `page <= start_page + max_pages - 1`,
i.e. `max_pages` consecutive pages. -/
def forumPagesLoop (base : String) (forum_id : Nat) : Int → Nat → List String
  | _, 0 => []
  | page, n + 1 => get_forum_page_url base forum_id page :: forumPagesLoop base forum_id (page + 1) n

/-- AgTalkScraper.get_forum_page_urls (scraper.py lines 67-77). -/
def get_forum_page_urls (base : String) (forum_id : Nat) (start_page : Int)
    (max_pages : Nat) : List String :=
  forumPagesLoop base forum_id start_page max_pages

theorem forumPagesLoop_length (base : String) (forum_id : Nat) :
    ∀ (n : Nat) (page : Int), (forumPagesLoop base forum_id page n).length = n := by
  intro n
  induction n with
  | zero => intro page; rfl
  | succ k ih =>
    intro page
    rw [forumPagesLoop, List.length_cons, ih (page + 1)]

/-- C6: the traversal enumerates exactly `max_pages` listing URLs for the
forum identifier; page 1 is built with no bookmark offset; every page `N ≥ 2`
is built with the bookmark offset `1 + (N - 1) * 50`; in particular page 5
carries offset 201. -/
theorem get_forum_page_urls_shape (base : String) (forum_id : Nat)
    (start_page : Int) (max_pages : Nat) (page : Int) :
    (get_forum_page_urls base forum_id start_page max_pages).length = max_pages ∧
    get_forum_page_url base forum_id 1
      = base ++ "/forums/forum-view.asp?fid=" ++ toString forum_id
          ++ "&displaytype=flat" ∧
    (2 ≤ page →
      get_forum_page_url base forum_id page
        = base ++ "/forums/forum-view.asp?fid=" ++ toString forum_id
            ++ "&bookmark=" ++ toString (1 + (page - 1) * 50) ++ "&displaytype=flat") ∧
    get_forum_page_url base forum_id 5
      = base ++ "/forums/forum-view.asp?fid=" ++ toString forum_id
          ++ "&bookmark=" ++ toString (201 : Int) ++ "&displaytype=flat" := by
  refine ⟨forumPagesLoop_length base forum_id max_pages start_page, rfl, ?_, rfl⟩
  intro hpage
  unfold get_forum_page_url
  rw [if_neg (by omega)]

/-- C6 witness: the theorem at concrete arguments. -/
theorem get_forum_page_urls_shape_witness :
    (get_forum_page_urls "B" 3 1 4).length = 4 ∧
    get_forum_page_url "B" 3 5
      = "B" ++ "/forums/forum-view.asp?fid=" ++ toString (3 : Nat)
          ++ "&bookmark=" ++ toString (1 + ((5 : Int) - 1) * 50) ++ "&displaytype=flat" :=
  ⟨(get_forum_page_urls_shape "B" 3 1 4 5).1,
   (get_forum_page_urls_shape "B" 3 1 4 5).2.2.1 (by decide)⟩

/-! ## Scraper: transport (scraper.py, make_request)

The outcome of `self.session.get(url, timeout=30)` is modelled by
`GetOutcome`: the two `requests` exceptions named by the spec (connection
failure and timeout; the remaining `RequestException` subclasses behave like
these two), or a final HTTP response with its status code.
`Response.raise_for_status` raises exactly for status codes in 400..599.
The observable effects are recorded as a trace: receiving the response and
the `time.sleep(request_delay)` of line 44. -/

inductive GetOutcome where
  | connError
  | timeoutError
  | response (status : Nat)
deriving DecidableEq

inductive TraceEv where
  | received (status : Nat)
  | slept (delay : ℚ)
deriving DecidableEq

/-- requests Response.raise_for_status: an HTTPError for 4xx/5xx codes. -/
def raiseForStatus (status : Nat) : Bool :=
  decide (400 ≤ status ∧ status < 600)

/-- AgTalkScraper.make_request (scraper.py lines 36-49): on a raised
`RequestException` the error is logged and re-raised; a received response
with a 4xx/5xx status raises through the same path; otherwise the scraper
sleeps for the configured delay after receiving the response and then
returns it.  The first component is the returned value or the re-raised
error; the second is the effect trace, in order. -/
def make_request (outcome : GetOutcome) (request_delay : ℚ) :
    Except Unit Nat × List TraceEv :=
  match outcome with
  | .connError => (.error (), [])
  | .timeoutError => (.error (), [])
  | .response s =>
    if raiseForStatus s then (.error (), [.received s])
    else (.ok s, [.received s, .slept request_delay])

/-- C9 counterexample. A final response with status 304 (non-2xx) is returned
without error by make_request: `raise_for_status` raises only for 4xx/5xx,
so "raises exactly on network failure, timeout, or non-2xx status" is false. -/
theorem make_request_304_not_error :
    (make_request (GetOutcome.response 304) 2).1 = Except.ok 304 ∧
    ¬(200 ≤ 304 ∧ 304 < 300) := by
  refine ⟨rfl, by decide⟩

/-- C9 (amended): make_request raises exactly when the underlying request
raised (network failure or timeout) or the response status is in 400..599;
on success the effect trace is the response reception followed by the
configured-delay sleep, so the delay is paid after the response and before
make_request returns. -/
theorem make_request_error_iff (outcome : GetOutcome) (request_delay : ℚ) :
    ((make_request outcome request_delay).1 = Except.error ()
      ↔ outcome = GetOutcome.connError ∨ outcome = GetOutcome.timeoutError ∨
        ∃ s, outcome = GetOutcome.response s ∧ 400 ≤ s ∧ s < 600) ∧
    (∀ s, (make_request outcome request_delay).1 = Except.ok s →
      (make_request outcome request_delay).2
        = [TraceEv.received s, TraceEv.slept request_delay]) := by
  constructor
  · cases outcome with
    | connError => simp [make_request]
    | timeoutError => simp [make_request]
    | response s =>
      by_cases hs : raiseForStatus s = true
      · simp only [make_request, if_pos hs]
        have hrange : 400 ≤ s ∧ s < 600 := by
          have := hs
          unfold raiseForStatus at this
          exact of_decide_eq_true this
        simp [hrange]
      · simp only [make_request, if_neg hs]
        have hrange : ¬(400 ≤ s ∧ s < 600) := by
          intro hc
          exact hs (by unfold raiseForStatus; exact decide_eq_true hc)
        simp [hrange]
  · intro s hok
    cases outcome with
    | connError => exact absurd hok (by simp [make_request])
    | timeoutError => exact absurd hok (by simp [make_request])
    | response s' =>
      by_cases hs : raiseForStatus s' = true
      · exact absurd hok (by simp [make_request, hs])
      · have hss : s' = s := by
          have := hok
          simp only [make_request, if_neg hs] at this
          exact (Except.ok.injEq _ _).mp this
        subst hss
        simp [make_request, hs]

/-- C9 witness: the amended theorem at a concrete successful outcome. -/
theorem make_request_error_iff_witness :
    (make_request (GetOutcome.response 200) 2).2
      = [TraceEv.received 200, TraceEv.slept 2] :=
  (make_request_error_iff (GetOutcome.response 200) 2).2 200 rfl

/-! ## Scraper: thread traversal (scraper.py, scrape_post) -/

/-- The call `self.parser.extract_post_data(soup, current_url, self.config.forum_id)`
at scraper.py line 118.  AgTalkParser.extract_post_data (parser.py line 60)
is declared with two parameters `(soup, url)` beside `self`, so Python raises
`TypeError` at the call site, before the parser body runs; the error value
stands for that TypeError. -/
def extract_post_data_wrong_arity (_doc : ThreadDoc) (_url : String) (_forum_id : Nat) :
    Except Unit (List PostData) := .error ()

/-- Thread page URL construction inside scrape_post (scraper.py lines 109-113). -/
def thread_page_url (base tid : String) (page : Nat) : String :=
  if page = 1 then
    base ++ "/forums/thread-view.asp?tid=" ++ tid ++ "&DisplayType=flat"
  else
    base ++ "/forums/thread-view.asp?tid=" ++ tid
      ++ "&start=" ++ toString (1 + (page - 1) * 50) ++ "&displaytype=flat"

/-- The `while True` loop of scrape_post (scraper.py lines 106-150), with an
explicit fuel bound (every Python run of this loop breaks in its first
iteration, as proved below, so no run exhausts any positive fuel).  `fetch`
gives the outcome of make_request for each thread page; any exception inside
the `try` — a raised request, or the TypeError from the extract_post_data
call — is caught by lines 148-150, which break out of the loop.  A page with
no extracted posts breaks (lines 120-122); otherwise the posts accumulate and
the loop continues exactly when some navigation link carries a `start` value
of at least `1 + page * 50` (lines 129-144). -/
def scrapePostLoop (fetch : Nat → Except Unit ThreadDoc) (base tid : String)
    (forum_id : Nat) : Nat → Nat → List PostData → List PostData
  | 0, _, acc => acc
  | fuel + 1, page, acc =>
    match fetch page with
    | .error _ => acc
    | .ok doc =>
      match extract_post_data_wrong_arity doc (thread_page_url base tid page) forum_id with
      | .error _ => acc
      | .ok posts =>
        if posts.isEmpty then acc
        else
          let acc2 := acc ++ posts
          if doc.navStarts.any (fun s => decide (1 + page * 50 ≤ s)) then
            scrapePostLoop fetch base tid forum_id fuel (page + 1) acc2
          else acc2

/-- AgTalkScraper.scrape_post (scraper.py lines 93-157): extract the thread
id from the URL with `re.search(r'tid=(\d+)')`, returning no records when it
is absent (lines 99-102), then run the page loop from page 1. -/
def scrape_post (fetch : Nat → Except Unit ThreadDoc) (base : String)
    (forum_id fuel : Nat) (post_url : String) : List PostData :=
  match tidSearch post_url with
  | none => []
  | some tid => scrapePostLoop fetch base tid forum_id fuel 1 []

theorem scrapePostLoop_eq_acc (fetch : Nat → Except Unit ThreadDoc)
    (base tid : String) (forum_id : Nat) :
    ∀ (fuel page : Nat) (acc : List PostData),
      scrapePostLoop fetch base tid forum_id fuel page acc = acc := by
  intro fuel page acc
  cases fuel with
  | zero => rfl
  | succ k =>
    rw [scrapePostLoop]
    cases hf : fetch page with
    | error e => rfl
    | ok doc => rfl

/-- C3: for every thread URL containing a numeric tid parameter and every
sequence of fetched responses, scrape_post returns the empty list of
records: the three-argument call to the two-parameter extract_post_data
raises TypeError, the per-page handler catches it, and the loop breaks
before anything is collected. -/
theorem scrape_post_always_empty (fetch : Nat → Except Unit ThreadDoc)
    (base : String) (forum_id fuel : Nat) (post_url : String)
    (_h : (tidSearch post_url).isSome = true) :
    scrape_post fetch base forum_id fuel post_url = [] := by
  unfold scrape_post
  cases ht : tidSearch post_url with
  | none => rfl
  | some tid => exact scrapePostLoop_eq_acc fetch base tid forum_id fuel 1 []

/-- C3 witness: the theorem at a concrete URL and fetch sequence. -/
theorem scrape_post_always_empty_witness :
    (tidSearch "B/forums/thread-view.asp?tid=5&DisplayType=flat").isSome = true ∧
    scrape_post (fun _ => Except.error ()) "B" 3 9
      "B/forums/thread-view.asp?tid=5&DisplayType=flat" = [] :=
  ⟨by decide,
   scrape_post_always_empty (fun _ => Except.error ()) "B" 3 9
     "B/forums/thread-view.asp?tid=5&DisplayType=flat" (by decide)⟩

/-- A one-page thread document with exactly one accepted post marker. -/
def docOnePost : ThreadDoc :=
  ⟨some "Viewing a thread - T",
   [Marker.ok ⟨some "alice", "1/2/2024 3:04", some "hello everyone out there"⟩], []⟩

/-- C1 failing run: the thread's only fetched page contains one accepted post
marker (author-profile link present, content passing the policy), yet the
crawl of the thread yields no records at all — so the postNumber values of
the accepted records are not the dense sequence 1..1 the claim requires.
The cause is the wrong-arity extract_post_data call of scraper.py line 118. -/
theorem scrape_post_loses_accepted_markers :
    scrape_post (fun _ => Except.ok docOnePost) "B" 3 9
      "B/forums/thread-view.asp?tid=5&DisplayType=flat" = [] ∧
    docOnePost.markers.countP (acceptsMarker (mainTitle docOnePost)) = 1 ∧
    (extract_post_data docOnePost
        (thread_page_url "B" "5" 1)).map PostData.postNumber = [1] := by
  refine ⟨rfl, by decide, by decide⟩

/-! ## Robots checker (robots_checker.py)

The loaded `urllib.robotparser` policy is modelled by its two query
functions; the checker field `robots_handle` (the Python handle attribute) is `none` when loading robots.txt
failed (robots_checker.py lines 28-31). -/

structure RobotsPolicy where
  canFetchFor : String → String → Bool
  crawlDelayFor : String → Option ℚ

structure RobotsChecker where
  base_url : String
  user_agent : String
  robots_handle : Option RobotsPolicy

/-- RobotsChecker.can_fetch (robots_checker.py lines 33-55): a null handle
allows every path; otherwise the policy is consulted on
`urljoin(base_url, url_path)`. -/
def can_fetch (uj : String → String → String) (rc : RobotsChecker)
    (url_path : String) : Bool :=
  match rc.robots_handle with
  | none => true
  | some p => p.canFetchFor rc.user_agent (uj rc.base_url url_path)

/-- RobotsChecker.get_crawl_delay (robots_checker.py lines 57-74): the
policy's delay when one is specified for the user agent, the fixed 2-second
default when the handle is null or the policy specifies none. -/
def get_crawl_delay (rc : RobotsChecker) : ℚ :=
  match rc.robots_handle with
  | none => 2
  | some p =>
    match p.crawlDelayFor rc.user_agent with
    | some d => d
    | none => 2

/-- C10: with a null robots handle, can_fetch allows every path and
get_crawl_delay returns the fixed 2-second default; the same default is
returned whenever the loaded policy specifies no delay for the user agent. -/
theorem robots_null_handle_defaults (base ua path : String)
    (uj : String → String → String) (p : RobotsPolicy) :
    can_fetch uj ⟨base, ua, none⟩ path = true ∧
    get_crawl_delay ⟨base, ua, none⟩ = 2 ∧
    (p.crawlDelayFor ua = none → get_crawl_delay ⟨base, ua, some p⟩ = 2) := by
  refine ⟨rfl, rfl, ?_⟩
  intro h
  unfold get_crawl_delay
  simp [h]

/-- C10 witness: the theorem at a concrete checker and policy. -/
theorem robots_null_handle_defaults_witness :
    can_fetch (fun b h => b ++ h) ⟨"B", "ua", none⟩ "/forums/" = true ∧
    get_crawl_delay ⟨"B", "ua", some ⟨fun _ _ => false, fun _ => none⟩⟩ = 2 :=
  ⟨(robots_null_handle_defaults "B" "ua" "/forums/" (fun b h => b ++ h)
      ⟨fun _ _ => false, fun _ => none⟩).1,
   (robots_null_handle_defaults "B" "ua" "/forums/" (fun b h => b ++ h)
      ⟨fun _ _ => false, fun _ => none⟩).2.2 rfl⟩

/-! ## Persistence store and crawl orchestrator (database.py, scraper.py)

The posts table is modelled as the list of its rows in insertion order; the
`url` column carries the unique key.  DatabaseManager.post_exists is the
existence query of database.py lines 85-94 and DatabaseManager.save_post the
`INSERT ... ON CONFLICT (url) DO UPDATE` upsert of lines 96-151 (the
`scraped_at` refresh and date parsing touch no claim).  In
AgTalkScraper.scrape_forum the thread walk `self.scrape_post(post_url)` is
passed in as the parameter `sp`, mirroring the method call; the faithful
embedding of that method is `scrape_post` above. -/

def post_exists (store : List PostData) (u : String) : Bool :=
  store.any (fun p => p.url == u)

def save_post (store : List PostData) (p : PostData) : List PostData :=
  if store.any (fun q => q.url == p.url) then
    store.map (fun q => if q.url == p.url then p else q)
  else store ++ [p]

/-- The per-record save loop of scrape_forum (scraper.py lines 183-191):
rewrite each record's url to `{thread_url}#post{post_number}`, save it unless
that url already exists, and count each new row. -/
def savePostsLoop (post_url : String) :
    List PostData → List PostData → Nat → List PostData × Nat
  | [], store, total => (store, total)
  | p :: rest, store, total =>
    let uniq := post_url ++ "#post" ++ toString p.postNumber
    if post_exists store uniq then savePostsLoop post_url rest store total
    else savePostsLoop post_url rest (save_post store { p with url := uniq }) (total + 1)

/-- The per-thread loop of scrape_forum (scraper.py lines 172-194): a
discovered thread URL already present in the store is skipped (lines
174-176); otherwise the thread is walked (`sp`, recorded in the third
component) and its records saved. -/
def threadLoop (sp : String → List PostData) :
    List String → List PostData → Nat → List String →
      List PostData × Nat × List String
  | [], store, total, walked => (store, total, walked)
  | u :: rest, store, total, walked =>
    if post_exists store u then threadLoop sp rest store total walked
    else
      let r := savePostsLoop u (sp u) store total
      threadLoop sp rest r.1 r.2 (walked ++ [u])

/-- AgTalkScraper.scrape_forum (scraper.py lines 159-200): walk the
discovered thread URLs of each listing page in order.  `listing` holds the
thread URLs extracted per fetched listing page (the result of
scrape_forum_page, which yields an empty list for a failed page). -/
def scrape_forum (sp : String → List PostData) :
    List (List String) → List PostData → Nat → List String →
      List PostData × Nat × List String
  | [], store, total, walked => (store, total, walked)
  | page :: rest, store, total, walked =>
    let r := threadLoop sp page store total walked
    scrape_forum sp rest r.1 r.2.1 r.2.2

theorem threadLoop_skips_existing (sp : String → List PostData)
    (rest : List String) (store : List PostData) (total : Nat)
    (walked : List String) (u : String) (h : post_exists store u = true) :
    threadLoop sp (u :: rest) store total walked
      = threadLoop sp rest store total walked := by
  rw [threadLoop, if_pos h]

/-- The canonical URL of the demonstration thread. -/
def demoThreadUrl : String := "B/forums/thread-view.asp?tid=5&DisplayType=flat"

/-- The single record the demonstration thread walk produces. -/
def demoPost : PostData :=
  ⟨"", "T", "alice", "", "5", "Subject: T, Post: hello everyone", 1⟩

/-- A thread walk oracle for the unchanged source: thread 5 has one post. -/
def demoWalk : String → List PostData :=
  fun v => if v == demoThreadUrl then [demoPost] else []

/-- First crawl of the one-thread forum, from an empty store. -/
def demoRun1 : List PostData × Nat × List String :=
  scrape_forum demoWalk [[demoThreadUrl]] [] 0 []

/-- Second crawl against the unchanged source, from the first run's store. -/
def demoRun2 : List PostData × Nat × List String :=
  scrape_forum demoWalk [[demoThreadUrl]] demoRun1.1 0 []

/-- C2 failing run.  The first crawl stores the thread's post under the key
`{canonical url}#post1`, never under the bare canonical thread URL; hence the
second crawl's existence check `post_exists(post_url)` (scraper.py line 174)
misses and the thread is re-walked, contradicting "once any post from it is
stored, [the thread] is never re-walked".  The idempotence half of the claim
does hold: the second run stores nothing new and its new-stored count is 0,
because of the per-post check of line 189. -/
theorem scrape_forum_rewalks_stored_thread :
    demoRun1.1.map PostData.url = [demoThreadUrl ++ "#post1"] ∧
    post_exists demoRun1.1 demoThreadUrl = false ∧
    demoRun2.2.2 = [demoThreadUrl] ∧
    demoRun2.2.1 = 0 ∧
    demoRun2.1 = demoRun1.1 := by
  refine ⟨rfl, by decide, rfl, rfl, rfl⟩

/-! ## Entry point dispatch (main.py, main) -/

/-- The methods defined on AgTalkScraper (scraper.py lines 16-200). -/
def agtalk_scraper_method_names : List String :=
  ["check_robots_compliance", "make_request", "get_forum_page_url",
   "get_forum_page_urls", "scrape_forum_page", "scrape_post", "scrape_forum"]

inductive MainOutcome where
  | exitFailure
  | completed (total : Nat)
deriving DecidableEq

/-- The dispatch of main (main.py lines 106-119): with more than one
configured forum id, main calls `scraper.scrape_forums()`; attribute lookup
on the scraper object succeeds only for methods AgTalkScraper defines, and a
failed lookup raises AttributeError, which the surrounding `except Exception`
handler turns into `sys.exit(1)`.  With a single forum id main calls
`scraper.scrape_forum()` and reports its total.  The totals of the two calls
are parameters, the second standing for the hypothetical result of a
`scrape_forums` method. -/
def main_dispatch (forum_ids : List Nat)
    (scrape_forums_total scrape_forum_total : Nat) : MainOutcome :=
  if 1 < forum_ids.length then
    if agtalk_scraper_method_names.contains "scrape_forums" then
      MainOutcome.completed scrape_forums_total
    else MainOutcome.exitFailure
  else MainOutcome.completed scrape_forum_total

/-- C8 failing run: a run configured with the two forum ids 3 and 7 exits
with a failure before traversing any forum, because AgTalkScraper defines no
`scrape_forums` method; a single-forum run completes with scrape_forum's
total, which covers only that one forum. -/
theorem main_dispatch_multi_forum_fails (a b : Nat) :
    main_dispatch [3, 7] a b = MainOutcome.exitFailure ∧
    main_dispatch [3] a b = MainOutcome.completed b :=
  ⟨rfl, rfl⟩
